import Mathlib

/-!
Shallow embedding of `src/api.js` (the steem-js client): the constructor's
option handling, request-id assignment, the request dispatcher (`send`,
`waitForSlot`, the per-request `message` listener, the `close` listener,
`stop`), and the polling stream layers (`streamBlockNumber`, `streamBlock`).
Machine state is passed explicitly; the single-threaded event loop is
modelled as a list of atomic events folded over the state.
-/

namespace Steem

/-- The `DEFAULTS.apiIds` object (api.js lines 26-31). -/
structure ApiIds where
  database_api : Nat
  login_api : Nat
  follow_api : Nat
  network_broadcast_api : Nat
deriving DecidableEq

/-- An options object: the three keys `DEFAULTS` has, each possibly absent,
plus `extra`, standing for any key of the caller's that `DEFAULTS` lacks
(`Object.assign(target, source)` writes only the source's own keys). -/
structure OptionsObj where
  url : Option String
  apiIds : Option ApiIds
  id : Option Nat
  extra : Option String
deriving DecidableEq

/-- The module-level `DEFAULTS` constant (api.js lines 24-33). -/
def DEFAULTS : OptionsObj :=
  { url := some "wss://steemit.com/wspa"
  , apiIds := some { database_api := 0, login_api := 1, follow_api := 3, network_broadcast_api := 2 }
  , id := some 0
  , extra := none }

/-- `Object.assign(options, DEFAULTS)` (api.js line 38): every own key of
`DEFAULTS` is written onto `options`, overwriting whatever the caller put
there; keys `DEFAULTS` lacks are left alone.  The result is the caller's
own object, mutated in place. -/
def objectAssignDefaults (options : OptionsObj) : OptionsObj :=
  { options with url := DEFAULTS.url, apiIds := DEFAULTS.apiIds, id := DEFAULTS.id }

/-- The constructor's option handling (api.js lines 36-39): after
`Object.assign(options, DEFAULTS)`, the caller's object holds the mutated
value and `this.options` holds `cloneDeep` of it (an equal value).
Returns (the caller's object after the call, `this.options`). -/
def constructorOptions (options : OptionsObj) : OptionsObj × OptionsObj :=
  let mutated := objectAssignDefaults options
  (mutated, mutated)

/-- `const id = data.id || this.id++` (api.js line 134): JS `||` falls back
to the counter whenever `data.id` is absent or `0` (both falsy); the
post-increment bumps the counter only when the fallback is taken.
Returns (the chosen id, the counter afterwards). -/
def chooseId (dataId : Option Nat) (counter : Nat) : Nat × Nat :=
  match dataId with
  | some d => if d = 0 then (counter, counter + 1) else (d, counter)
  | none => (counter, counter + 1)

/-- Lifecycle phase of one `send` call: `gated` while `waitForSlot` polls,
`admitted` once a poll saw `inFlight < 10`, `listening` once the `message`
listener is registered and the payload written, `done` once the listener
ran `release()`. -/
inductive Phase where
  | gated
  | admitted
  | listening
  | done
deriving DecidableEq

/-- How a request's promise settled. -/
inductive Outcome where
  | pending
  | resolvedWith (result : Option Nat)
  | rejectedWith (err : String)
deriving DecidableEq

/-- An inbound wire message `{id, result, error}`.  The listener
(api.js lines 148-175) reads only `message.id` and `message.result`. -/
structure Message where
  id : Nat
  result : Option Nat
  error : Option String
deriving DecidableEq

/-- One request tracked by the dispatcher: the id chosen at `send` time,
the `error` field of the caller's outbound `data` object (the listener
reads `data.error` at line 165), its phase, and how it settled. -/
structure PReq where
  reqId : Nat
  dataError : Option String
  phase : Phase
  outcome : Outcome
deriving DecidableEq

/-- Client state: the id counter `this.id`, the budget `this.inFlight`,
`this.isOpen`, the number of WebSocket-level releases in `this.releases`,
the requests in call order, and the indices written to the socket in
transmission order. -/
structure MState where
  nextId : Nat
  inFlight : Int
  isOpen : Bool
  releases : Nat
  reqs : List PReq
  transmitted : List Nat
deriving DecidableEq

/-- State right after `start` opened the connection: counter and budget at
zero (api.js lines 41-42), the three socket listeners registered. -/
def initState : MState :=
  { nextId := 0, inFlight := 0, isOpen := true, releases := 3, reqs := [], transmitted := [] }

/-- The body of the `message` listener one `send` registers (api.js
lines 148-175), run against one inbound message, threading `inFlight`:
* `message.id < id`: old message, dropped, nothing changes;
* otherwise `this.inFlight -= 1` and `release()` run unconditionally, then
  * `message.id !== id`: the response was dropped, return;
  * match: reject when the caller's `data.error` is set (the code reads
    `data.error`, not the message's error field), else resolve with
    `message.result`. -/
def messageListener (m : Message) (r : PReq) (inFlight : Int) : PReq × Int :=
  if r.phase = Phase.listening then
    if m.id < r.reqId then (r, inFlight)
    else
      let rReleased := { r with phase := Phase.done }
      if m.id = r.reqId then
        match r.dataError with
        | some e => ({ rReleased with outcome := Outcome.rejectedWith e }, inFlight - 1)
        | none => ({ rReleased with outcome := Outcome.resolvedWith m.result }, inFlight - 1)
      else (rReleased, inFlight - 1)
  else (r, inFlight)

/-- `this.emit('message', json)` (api.js line 77) runs every registered
listener in registration order, each possibly decrementing `inFlight`. -/
def emitMessage (m : Message) : List PReq → Int → List PReq × Int
  | [], inFlight => ([], inFlight)
  | r :: rs, inFlight =>
    let p := messageListener m r inFlight
    let q := emitMessage m rs p.2
    (p.1 :: q.1, q.2)

/-- The atomic events of the single-threaded execution:
* `callSend dataId dataError` — the synchronous part of `send`
  (api.js lines 133-136 and 185): choose the id, build the chain, and
  increment `inFlight` before any admission check;
* `slotCheck i` — one firing of request `i`'s `waitForSlot` poll
  (lines 125-131): admits the request only when `inFlight < 10`,
  otherwise a no-op (the poll re-arms 100 time-units later);
* `transmit i` — the continuation after admission (lines 137-178):
  register the `message` listener and write the payload to the socket;
* `deliver m` — an inbound `message` event: every registered listener runs;
* `wsClose` — the `close` listener (lines 68-72): it sets
  `this.isOpen = false` and touches nothing else. -/
inductive Act where
  | callSend (dataId : Option Nat) (dataError : Option String)
  | slotCheck (i : Nat)
  | transmit (i : Nat)
  | deliver (m : Message)
  | wsClose

/-- One atomic event applied to the client state. -/
def applyAct (s : MState) (a : Act) : MState :=
  match a with
  | Act.callSend dataId dataError =>
    let p := chooseId dataId s.nextId
    { s with nextId := p.2
           , inFlight := s.inFlight + 1
           , reqs := s.reqs ++
               [{ reqId := p.1, dataError := dataError
                , phase := Phase.gated, outcome := Outcome.pending }] }
  | Act.slotCheck i =>
    match s.reqs.get? i with
    | some r =>
      if r.phase = Phase.gated ∧ s.inFlight < 10 then
        { s with reqs := s.reqs.set i { r with phase := Phase.admitted } }
      else s
    | none => s
  | Act.transmit i =>
    match s.reqs.get? i with
    | some r =>
      if r.phase = Phase.admitted then
        { s with reqs := s.reqs.set i { r with phase := Phase.listening }
               , transmitted := s.transmitted ++ [i] }
      else s
    | none => s
  | Act.deliver m =>
    let p := emitMessage m s.reqs s.inFlight
    { s with reqs := p.1, inFlight := p.2 }
  | Act.wsClose => { s with isOpen := false }

/-- `stop()` (api.js lines 92-98): closes the socket, forgets `startP` and
`ws`, and runs the releases collected in `this.releases` — these are only
the three socket-level listeners `start` stored there (lines 80-84).  The
per-request `message` listeners were never put in `this.releases`, and
neither the pending requests nor `inFlight` are touched. -/
def stop (s : MState) : MState := { s with releases := 0 }

/-- A whole execution: the event list folded over the state. -/
def run (s : MState) (acts : List Act) : MState := acts.foldl applyAct s

/-- A message hits a listener when that listener is registered and the
message's id is not older than the listener's own id (the complement of
the `message.id < id` early return). -/
def isHit (m : Message) (r : PReq) : Prop :=
  r.phase = Phase.listening ∧ r.reqId ≤ m.id

instance (m : Message) (r : PReq) : Decidable (isHit m r) :=
  inferInstanceAs (Decidable (_ ∧ _))

/-- What the listener leaves behind for a request it hits. -/
def deliverOne (m : Message) (r : PReq) : PReq :=
  if m.id = r.reqId then
    match r.dataError with
    | some e => { r with phase := Phase.done, outcome := Outcome.rejectedWith e }
    | none => { r with phase := Phase.done, outcome := Outcome.resolvedWith m.result }
  else { r with phase := Phase.done }

/-- The per-request effect of one inbound message. -/
def deliverFun (m : Message) (r : PReq) : PReq :=
  if isHit m r then deliverOne m r else r

/-- Whether a request in this phase still counts toward `inFlight`
(incremented at call time, decremented when its listener releases). -/
def phaseUndone : Phase → Bool
  | Phase.done => false
  | _ => true

/-- Whether a request in this phase has passed the admission check. -/
def phaseActive : Phase → Bool
  | Phase.admitted => true
  | Phase.listening => true
  | _ => false

def phaseListening : Phase → Bool
  | Phase.listening => true
  | _ => false

def phaseGated : Phase → Bool
  | Phase.gated => true
  | _ => false

def undoneCount (rs : List PReq) : Nat := rs.countP (fun r => phaseUndone r.phase)

def listeningCount (rs : List PReq) : Nat := rs.countP (fun r => phaseListening r.phase)

def activeCount (rs : List PReq) : Nat := rs.countP (fun r => phaseActive r.phase)

def gatedCount (rs : List PReq) : Nat := rs.countP (fun r => phaseGated r.phase)

def hitCount (m : Message) (rs : List PReq) : Nat :=
  rs.countP (fun r => decide (isHit m r))

lemma messageListener_not_hit (m : Message) (r : PReq) (f : Int) (h : ¬ isHit m r) :
    messageListener m r f = (r, f) := by
  unfold messageListener
  by_cases hp : r.phase = Phase.listening
  · have hlt : m.id < r.reqId := by
      rcases Nat.lt_or_ge m.id r.reqId with h1 | h1
      · exact h1
      · exact absurd ⟨hp, h1⟩ h
    simp [hp, hlt]
  · simp [hp]

lemma messageListener_hit (m : Message) (r : PReq) (f : Int) (h : isHit m r) :
    messageListener m r f = (deliverOne m r, f - 1) := by
  obtain ⟨hp, hle⟩ := h
  have hnlt : ¬ m.id < r.reqId := Nat.not_lt.mpr hle
  unfold messageListener deliverOne
  by_cases hid : m.id = r.reqId
  · cases he : r.dataError <;> simp [hp, hnlt, hid, he]
  · simp [hp, hnlt, hid]

lemma deliverOne_phase (m : Message) (r : PReq) : (deliverOne m r).phase = Phase.done := by
  unfold deliverOne
  by_cases hid : m.id = r.reqId
  · cases he : r.dataError <;> simp [hid, he]
  · simp [hid]

lemma deliverOne_reqId (m : Message) (r : PReq) : (deliverOne m r).reqId = r.reqId := by
  unfold deliverOne
  by_cases hid : m.id = r.reqId
  · cases he : r.dataError <;> simp [hid, he]
  · simp [hid]

lemma deliverFun_hit (m : Message) (r : PReq) (h : isHit m r) :
    deliverFun m r = deliverOne m r := if_pos h

lemma deliverFun_not_hit (m : Message) (r : PReq) (h : ¬ isHit m r) :
    deliverFun m r = r := if_neg h

lemma hitCount_cons_hit (m : Message) (r : PReq) (rs : List PReq) (h : isHit m r) :
    hitCount m (r :: rs) = hitCount m rs + 1 := by
  simp [hitCount, List.countP_cons, h]

lemma hitCount_cons_not_hit (m : Message) (r : PReq) (rs : List PReq) (h : ¬ isHit m r) :
    hitCount m (r :: rs) = hitCount m rs := by
  simp [hitCount, List.countP_cons, h]

lemma emitMessage_eq (m : Message) (rs : List PReq) (f : Int) :
    emitMessage m rs f = (rs.map (deliverFun m), f - (hitCount m rs : Int)) := by
  induction rs generalizing f with
  | nil => simp [emitMessage, hitCount]
  | cons r rs ih =>
    by_cases h : isHit m r
    · simp only [emitMessage, messageListener_hit m r f h, ih, List.map_cons,
        deliverFun_hit m r h, hitCount_cons_hit m r rs h, Prod.mk.injEq]
      refine ⟨by simp, ?_⟩
      push_cast
      omega
    · simp only [emitMessage, messageListener_not_hit m r f h, ih, List.map_cons,
        deliverFun_not_hit m r h, hitCount_cons_not_hit m r rs h, Prod.mk.injEq]

lemma undoneCount_deliver (m : Message) (rs : List PReq) :
    undoneCount (rs.map (deliverFun m)) + hitCount m rs = undoneCount rs := by
  induction rs with
  | nil => rfl
  | cons r rs ih =>
    rw [List.map_cons]
    simp only [undoneCount, List.countP_cons] at ih ⊢
    by_cases h : isHit m r
    · have hp : r.phase = Phase.listening := h.1
      have e1 : (if phaseUndone (deliverFun m r).phase = true then (1:Nat) else 0) = 0 := by
        rw [deliverFun_hit m r h, deliverOne_phase]
        rfl
      have e2 : (if phaseUndone r.phase = true then (1:Nat) else 0) = 1 := by
        rw [hp]
        rfl
      rw [e1, e2, hitCount_cons_hit m r rs h]
      omega
    · rw [deliverFun_not_hit m r h, hitCount_cons_not_hit m r rs h]
      omega

lemma activeCount_deliver (m : Message) (rs : List PReq) :
    activeCount (rs.map (deliverFun m)) + hitCount m rs = activeCount rs := by
  induction rs with
  | nil => rfl
  | cons r rs ih =>
    rw [List.map_cons]
    simp only [activeCount, List.countP_cons] at ih ⊢
    by_cases h : isHit m r
    · have hp : r.phase = Phase.listening := h.1
      have e1 : (if phaseActive (deliverFun m r).phase = true then (1:Nat) else 0) = 0 := by
        rw [deliverFun_hit m r h, deliverOne_phase]
        rfl
      have e2 : (if phaseActive r.phase = true then (1:Nat) else 0) = 1 := by
        rw [hp]
        rfl
      rw [e1, e2, hitCount_cons_hit m r rs h]
      omega
    · rw [deliverFun_not_hit m r h, hitCount_cons_not_hit m r rs h]
      omega

lemma hitCount_le_undone (m : Message) (rs : List PReq) :
    hitCount m rs ≤ undoneCount rs := by
  refine List.countP_mono_left ?_
  intro r _ h
  have hh : isHit m r := of_decide_eq_true h
  rw [hh.1]
  rfl

lemma listening_le_active (rs : List PReq) : listeningCount rs ≤ activeCount rs := by
  refine List.countP_mono_left ?_
  intro r _ h
  cases hp : r.phase <;> rw [hp] at h <;>
    first
    | rfl
    | exact absurd h (by decide)

lemma active_add_gated_le_undone (rs : List PReq) :
    activeCount rs + gatedCount rs ≤ undoneCount rs := by
  induction rs with
  | nil => exact Nat.le_refl 0
  | cons r rs ih =>
    simp only [activeCount, gatedCount, undoneCount, List.countP_cons] at ih ⊢
    have hcase : (if phaseActive r.phase = true then (1:Nat) else 0) +
        (if phaseGated r.phase = true then (1:Nat) else 0) ≤
        (if phaseUndone r.phase = true then (1:Nat) else 0) := by
      cases r.phase <;> decide
    omega

lemma countP_set_add (p : PReq → Bool) (l : List PReq) (i : Nat) (x r : PReq)
    (h : l.get? i = some r) :
    (l.set i x).countP p + (if p r then 1 else 0) =
      l.countP p + (if p x then 1 else 0) := by
  induction l generalizing i with
  | nil => simp at h
  | cons a l ih =>
    cases i with
    | zero =>
      rw [List.get?_cons_zero] at h
      cases h
      simp only [List.set, List.countP_cons]
      omega
    | succ n =>
      rw [List.get?_cons_succ] at h
      simp only [List.set, List.countP_cons]
      have := ih n h
      omega

lemma gated_pos (rs : List PReq) (i : Nat) (r : PReq) (hget : rs.get? i = some r)
    (hp : r.phase = Phase.gated) : 1 ≤ gatedCount rs := by
  have hmem : r ∈ rs := List.get?_mem hget
  have hpos : 0 < gatedCount rs := by
    refine List.countP_pos_iff.mpr ⟨r, hmem, ?_⟩
    rw [hp]
    rfl
  omega

/-- The dispatcher invariant: `inFlight` always equals the number of
requests whose listener has not yet run `release()` (the counter is
incremented once per `send` call and decremented once per listener), and
at most 10 requests are past the admission check at a time. -/
def Inv (s : MState) : Prop :=
  s.inFlight = (undoneCount s.reqs : Int) ∧ activeCount s.reqs ≤ 10

lemma inv_init : Inv initState := by
  constructor
  · rfl
  · decide

lemma inv_applyAct (s : MState) (a : Act) (h : Inv s) : Inv (applyAct s a) := by
  obtain ⟨h1, h2⟩ := h
  have e1 : phaseUndone Phase.gated = true := rfl
  have e2 : phaseActive Phase.gated = false := rfl
  have e3 : phaseUndone Phase.admitted = true := rfl
  have e4 : phaseActive Phase.admitted = true := rfl
  have e5 : phaseUndone Phase.listening = true := rfl
  have e6 : phaseActive Phase.listening = true := rfl
  cases a with
  | callSend dataId dataError =>
    have hu : undoneCount (s.reqs ++ [⟨(chooseId dataId s.nextId).1, dataError, Phase.gated, Outcome.pending⟩]) = undoneCount s.reqs + 1 := by
      simp [undoneCount, List.countP_append, List.countP_cons, e1]
    have ha : activeCount (s.reqs ++ [⟨(chooseId dataId s.nextId).1, dataError, Phase.gated, Outcome.pending⟩]) = activeCount s.reqs := by
      simp [activeCount, List.countP_append, List.countP_cons, e2]
    refine ⟨?_, ?_⟩
    · show s.inFlight + 1 = (undoneCount (s.reqs ++ [⟨(chooseId dataId s.nextId).1, dataError, Phase.gated, Outcome.pending⟩]) : Int)
      rw [hu, h1]
      push_cast
      omega
    · show activeCount (s.reqs ++ [⟨(chooseId dataId s.nextId).1, dataError, Phase.gated, Outcome.pending⟩]) ≤ 10
      rw [ha]
      exact h2
  | slotCheck i =>
    cases hget : s.reqs.get? i with
    | none =>
      simp only [applyAct, hget]
      exact ⟨h1, h2⟩
    | some r =>
      by_cases hcond : r.phase = Phase.gated ∧ s.inFlight < 10
      · simp only [applyAct, hget, if_pos hcond]
        have hu := countP_set_add (fun q => phaseUndone q.phase) s.reqs i
          { r with phase := Phase.admitted } r hget
        have ha := countP_set_add (fun q => phaseActive q.phase) s.reqs i
          { r with phase := Phase.admitted } r hget
        simp [hcond.1, e1, e2, e3, e4] at hu ha
        have hg1 := gated_pos s.reqs i r hget hcond.1
        have hglo := active_add_gated_le_undone s.reqs
        have hlt := hcond.2
        rw [h1] at hlt
        refine ⟨?_, ?_⟩
        · show s.inFlight = (undoneCount (s.reqs.set i { r with phase := Phase.admitted }) : Int)
          rw [h1]
          simp only [undoneCount]
          omega
        · show activeCount (s.reqs.set i { r with phase := Phase.admitted }) ≤ 10
          simp only [activeCount, gatedCount, undoneCount] at ha hglo hg1 h2 hlt ⊢
          omega
      · simp only [applyAct, hget, if_neg hcond]
        exact ⟨h1, h2⟩
  | transmit i =>
    cases hget : s.reqs.get? i with
    | none =>
      simp only [applyAct, hget]
      exact ⟨h1, h2⟩
    | some r =>
      by_cases hcond : r.phase = Phase.admitted
      · simp only [applyAct, hget, if_pos hcond]
        have hu := countP_set_add (fun q => phaseUndone q.phase) s.reqs i
          { r with phase := Phase.listening } r hget
        have ha := countP_set_add (fun q => phaseActive q.phase) s.reqs i
          { r with phase := Phase.listening } r hget
        simp [hcond, e3, e4, e5, e6] at hu ha
        refine ⟨?_, ?_⟩
        · show s.inFlight = (undoneCount (s.reqs.set i { r with phase := Phase.listening }) : Int)
          rw [h1]
          simp only [undoneCount]
          omega
        · show activeCount (s.reqs.set i { r with phase := Phase.listening }) ≤ 10
          simp only [activeCount] at ha h2 ⊢
          omega
      · simp only [applyAct, hget, if_neg hcond]
        exact ⟨h1, h2⟩
  | deliver m =>
    simp only [applyAct, emitMessage_eq]
    have hu := undoneCount_deliver m s.reqs
    have ha := activeCount_deliver m s.reqs
    refine ⟨?_, ?_⟩
    · show s.inFlight - (hitCount m s.reqs : Int) = (undoneCount (s.reqs.map (deliverFun m)) : Int)
      rw [h1]
      omega
    · show activeCount (s.reqs.map (deliverFun m)) ≤ 10
      omega
  | wsClose => exact ⟨h1, h2⟩

lemma inv_run (acts : List Act) (s : MState) (h : Inv s) : Inv (run s acts) := by
  induction acts generalizing s with
  | nil => exact h
  | cons a acts ih =>
    show Inv (run (applyAct s a) acts)
    exact ih _ (inv_applyAct s a h)

/-- A two-request scenario: requests with identities 5 and 6 both
transmitted and listening, two in flight. -/
def scen0 : MState :=
  { nextId := 7, inFlight := 2, isOpen := true, releases := 3
  , reqs := [⟨5, none, Phase.listening, Outcome.pending⟩, ⟨6, none, Phase.listening, Outcome.pending⟩]
  , transmitted := [0, 1] }

def msg6 : Message := { id := 6, result := some 60, error := none }

def msg5 : Message := { id := 5, result := some 50, error := none }

/-- C1 counterexample: with requests 5 and 6 pending and the reply for 6
arriving first, request 5's listener sees the mismatched message with
identity 6, releases itself (phase `done`) instead of staying registered,
and when the reply for 5 then arrives nobody is listening: request 5 never
resolves, contradicting the claim that the mismatched listener stays
registered and that both callers receive their results. -/
theorem mismatchReleasesListenerCounterexample :
    (run scen0 [Act.deliver msg6]).reqs =
      [⟨5, none, Phase.done, Outcome.pending⟩, ⟨6, none, Phase.done, Outcome.resolvedWith (some 60)⟩] ∧
    (run scen0 [Act.deliver msg6, Act.deliver msg5]).reqs =
      [⟨5, none, Phase.done, Outcome.pending⟩, ⟨6, none, Phase.done, Outcome.resolvedWith (some 60)⟩] ∧
    (run scen0 [Act.deliver msg6, Act.deliver msg5]).reqs.get? 0 ≠
      some ⟨5, none, Phase.done, Outcome.resolvedWith (some 50)⟩ := by
  decide

/-- C1 (amended): an inbound response tagged `ik` settles, among requests
whose listeners are still registered, exactly those with identity `ik`
(a registered request with the matching identity and no `data.error`
resolves with the message's result); but every registered listener with
identity at most `ik` is unregistered by that message, so a listener does
not survive a mismatched response with a higher identity: with requests 5
and 6 pending and replies arriving as id 6 then id 5, caller 6 receives
its result while request 5's listener is removed by reply 6 and caller 5
never resolves. -/
theorem deliverCorrelationAmended (s : MState) (m : Message) :
    List.Forall₂ (fun r r2 =>
      (r2.outcome ≠ r.outcome → r.reqId = m.id ∧ r.phase = Phase.listening) ∧
      (r.phase = Phase.listening → r.reqId = m.id → r.dataError = none →
        r2.outcome = Outcome.resolvedWith m.result) ∧
      (r.phase = Phase.listening → r.reqId ≤ m.id → r2.phase = Phase.done) ∧
      (¬ (r.phase = Phase.listening ∧ r.reqId ≤ m.id) → r2 = r))
      s.reqs (applyAct s (Act.deliver m)).reqs ∧
    (run scen0 [Act.deliver msg6, Act.deliver msg5]).reqs =
      [⟨5, none, Phase.done, Outcome.pending⟩, ⟨6, none, Phase.done, Outcome.resolvedWith (some 60)⟩] := by
  constructor
  · show List.Forall₂ _ s.reqs (emitMessage m s.reqs s.inFlight).1
    rw [emitMessage_eq]
    have hall : ∀ r : PReq,
        ((deliverFun m r).outcome ≠ r.outcome → r.reqId = m.id ∧ r.phase = Phase.listening) ∧
        (r.phase = Phase.listening → r.reqId = m.id → r.dataError = none →
          (deliverFun m r).outcome = Outcome.resolvedWith m.result) ∧
        (r.phase = Phase.listening → r.reqId ≤ m.id → (deliverFun m r).phase = Phase.done) ∧
        (¬ (r.phase = Phase.listening ∧ r.reqId ≤ m.id) → deliverFun m r = r) := by
      intro r
      by_cases h : isHit m r
      · rw [deliverFun_hit m r h]
        obtain ⟨hp, hle⟩ := h
        refine ⟨?_, ?_, ?_, ?_⟩
        · intro hne
          by_cases hid : m.id = r.reqId
          · exact ⟨hid.symm, hp⟩
          · exfalso
            apply hne
            simp [deliverOne, hid]
        · intro _ hid he
          simp [deliverOne, hid.symm, he]
        · intro _ _
          exact deliverOne_phase m r
        · intro hnot
          exact absurd ⟨hp, hle⟩ hnot
      · rw [deliverFun_not_hit m r h]
        refine ⟨fun hne => absurd rfl hne, ?_, ?_, fun _ => rfl⟩
        · intro hp hid _
          exact absurd ⟨hp, hid ▸ Nat.le_refl m.id⟩ h
        · intro hp hle
          exact absurd ⟨hp, hle⟩ h
    induction s.reqs with
    | nil => exact List.Forall₂.nil
    | cons r rs ih => exact List.Forall₂.cons (hall r) ih
  · decide

/-- A single pending request with identity 5, one in flight. -/
def oneReqState : MState :=
  { nextId := 6, inFlight := 1, isOpen := true, releases := 3
  , reqs := [⟨5, none, Phase.listening, Outcome.pending⟩], transmitted := [0] }

/-- C2 counterexample: with one pending request (identity 5, `inFlight = 1`),
an inbound message tagged 6 is mismatched for that listener, resolves
nothing — yet the budget is decremented to 0 and the listener is released,
contradicting the claim that a mismatched message causes no decrement. -/
theorem mismatchDecrementCounterexample :
    (run oneReqState [Act.deliver { id := 6, result := some 9, error := none }]).inFlight = 0 ∧
    (run oneReqState [Act.deliver { id := 6, result := some 9, error := none }]).reqs =
      [⟨5, none, Phase.done, Outcome.pending⟩] := by
  decide

/-- C2 (amended): the budget is decremented once per registered listener at
the first inbound message whose identity is at least that listener's own
identity — whether it matches or is mismatched — so `inFlight` drops by the
number of such listeners; an inbound message whose identity is less than
every registered listener's identity (stale) changes nothing: no decrement
and nothing resolves. -/
theorem budgetDecrementAmended (s : MState) (m : Message) :
    (applyAct s (Act.deliver m)).inFlight = s.inFlight - (hitCount m s.reqs : Int) ∧
    ((∀ r ∈ s.reqs, r.phase = Phase.listening → m.id < r.reqId) →
      applyAct s (Act.deliver m) = s) := by
  constructor
  · show (emitMessage m s.reqs s.inFlight).2 = _
    rw [emitMessage_eq]
  · intro hstale
    show ({ s with reqs := (emitMessage m s.reqs s.inFlight).1, inFlight := (emitMessage m s.reqs s.inFlight).2 } : MState) = s
    rw [emitMessage_eq]
    have hmap : ∀ rs : List PReq, (∀ r ∈ rs, r.phase = Phase.listening → m.id < r.reqId) →
        rs.map (deliverFun m) = rs ∧ hitCount m rs = 0 := by
      intro rs
      induction rs with
      | nil => intro _; exact ⟨rfl, rfl⟩
      | cons r rs ih =>
        intro hall
        have hr : ¬ isHit m r := by
          rintro ⟨hp, hle⟩
          have := hall r (List.mem_cons_self r rs) hp
          omega
        obtain ⟨ihm, ihc⟩ := ih (fun q hq => hall q (List.mem_cons_of_mem r hq))
        refine ⟨?_, ?_⟩
        · rw [List.map_cons, deliverFun_not_hit m r hr, ihm]
        · rw [hitCount_cons_not_hit m r rs hr, ihc]
    obtain ⟨hm1, hm2⟩ := hmap s.reqs hstale
    rw [hm1, hm2]
    show ({ s with reqs := s.reqs, inFlight := s.inFlight - ((0:Nat) : Int) } : MState) = s
    simp

/-- C2 witness: `budgetDecrementAmended` applied to the one-request state
and the stale message tagged 3 (less than the pending identity 5): the
state is unchanged. -/
theorem budgetDecrementAmendedWitness :
    (applyAct oneReqState (Act.deliver { id := 3, result := none, error := none })).inFlight =
      oneReqState.inFlight - (hitCount { id := 3, result := none, error := none } oneReqState.reqs : Int) ∧
    applyAct oneReqState (Act.deliver { id := 3, result := none, error := none }) = oneReqState := by
  have h := budgetDecrementAmended oneReqState { id := 3, result := none, error := none }
  exact ⟨h.1, h.2 (by decide)⟩

/-- C5: the listener's error check reads `data.error` — a field of the
caller's own outbound request object — instead of the inbound message's
error field (api.js line 165).  A matched response that carries an error
indicator (`error = some "boom"`) is therefore resolved with its `result`
payload (here `none`) rather than rejected; conversely a request whose
outbound `data` object happens to carry an `error` field is rejected even
though the matched response is clean. -/
theorem errorFieldMisread :
    (run { nextId := 2, inFlight := 1, isOpen := true, releases := 3
         , reqs := [⟨1, none, Phase.listening, Outcome.pending⟩], transmitted := [0] }
       [Act.deliver { id := 1, result := none, error := some "boom" }]).reqs =
      [⟨1, none, Phase.done, Outcome.resolvedWith none⟩] ∧
    (run { nextId := 2, inFlight := 1, isOpen := true, releases := 3
         , reqs := [⟨1, some "req-err", Phase.listening, Outcome.pending⟩], transmitted := [0] }
       [Act.deliver { id := 1, result := some 7, error := none }]).reqs =
      [⟨1, some "req-err", Phase.done, Outcome.rejectedWith "req-err"⟩] := by
  decide

/-- A state with two pending requests and the connection about to fail. -/
def twoPendingState : MState :=
  { nextId := 7, inFlight := 2, isOpen := true, releases := 3
  , reqs := [⟨5, none, Phase.listening, Outcome.pending⟩, ⟨6, none, Phase.listening, Outcome.pending⟩]
  , transmitted := [0, 1] }

/-- C6 counterexample: when the connection closes while two requests are
pending, the close listener leaves both requests pending (no error of any
kind is delivered to their callers) and `inFlight` stays at 2 instead of
returning to 0; running `stop()` afterwards changes neither either. -/
theorem closeLeavesPendingCounterexample :
    (run twoPendingState [Act.wsClose]).reqs = twoPendingState.reqs ∧
    (run twoPendingState [Act.wsClose]).inFlight = 2 ∧
    (run twoPendingState [Act.wsClose]).reqs.all (fun r => r.outcome = Outcome.pending) = true ∧
    (stop (run twoPendingState [Act.wsClose])).reqs = twoPendingState.reqs ∧
    (stop (run twoPendingState [Act.wsClose])).inFlight = 2 := by
  decide

/-- C6 (amended): when the connection closes or fails, the `close` listener
only sets `isOpen` to false, and `stop` only releases the three
socket-level listeners; every pending request keeps its outcome (no
TransportError is surfaced to any caller) and `inFlight` keeps its value,
so the budget stays incremented for the requests that were in flight. -/
theorem closeBehaviorAmended (s : MState) :
    applyAct s Act.wsClose = { s with isOpen := false } ∧
    (applyAct s Act.wsClose).reqs = s.reqs ∧
    (applyAct s Act.wsClose).inFlight = s.inFlight ∧
    stop s = { s with releases := 0 } ∧
    (stop s).reqs = s.reqs ∧
    (stop s).inFlight = s.inFlight := by
  refine ⟨rfl, rfl, rfl, rfl, rfl, rfl⟩

/-- C3: along every execution from the fresh client state, `0 ≤ inFlight`
holds at every point, the number of requests simultaneously awaiting a
response (listener registered) never exceeds the capacity of 10, and a
`waitForSlot` poll is a no-op (admits nothing) whenever `10 ≤ inFlight` —
a request is admitted for transmission only while `inFlight < 10`. -/
theorem sendCapInvariant (acts : List Act) :
    0 ≤ (run initState acts).inFlight ∧
    listeningCount (run initState acts).reqs ≤ 10 ∧
    ∀ (s : MState) (i : Nat), 10 ≤ s.inFlight → applyAct s (Act.slotCheck i) = s := by
  obtain ⟨h1, h2⟩ := inv_run acts initState inv_init
  refine ⟨?_, ?_, ?_⟩
  · rw [h1]
    exact Int.natCast_nonneg _
  · exact le_trans (listening_le_active _) h2
  · intro s i hge
    cases hget : s.reqs.get? i with
    | none => simp only [applyAct, hget]
    | some r =>
      have hno : ¬ (r.phase = Phase.gated ∧ s.inFlight < 10) := by
        rintro ⟨-, hlt⟩
        omega
      simp only [applyAct, hget, if_neg hno]

/-- C3 witness: the third conjunct applied at a concrete over-budget state. -/
theorem sendCapInvariantWitness :
    0 ≤ (run initState []).inFlight ∧
    applyAct { nextId := 1, inFlight := 11, isOpen := true, releases := 3, reqs := [⟨0, none, Phase.gated, Outcome.pending⟩], transmitted := [] } (Act.slotCheck 0) = { nextId := 1, inFlight := 11, isOpen := true, releases := 3, reqs := [⟨0, none, Phase.gated, Outcome.pending⟩], transmitted := [] } := by
  refine ⟨(sendCapInvariant []).1, ?_⟩
  exact (sendCapInvariant []).2.2 _ 0 (by decide)

/-- The event trace behind C4: nine requests (indices 0-8) are transmitted
and awaiting replies, requests 9 and 10 are then called while the budget
is full (`inFlight` reaches 11), so request 9's first poll is a no-op;
the server replies out of order with id 8, releasing all nine listeners
(ids 0-8 are all at most 8), and request 10's poll then fires before
request 9's next poll — both pass, and request 10 transmits first. -/
def c4acts : List Act :=
  [Act.callSend none none, Act.callSend none none, Act.callSend none none,
   Act.callSend none none, Act.callSend none none, Act.callSend none none,
   Act.callSend none none, Act.callSend none none, Act.callSend none none,
   Act.slotCheck 0, Act.transmit 0, Act.slotCheck 1, Act.transmit 1,
   Act.slotCheck 2, Act.transmit 2, Act.slotCheck 3, Act.transmit 3,
   Act.slotCheck 4, Act.transmit 4, Act.slotCheck 5, Act.transmit 5,
   Act.slotCheck 6, Act.transmit 6, Act.slotCheck 7, Act.transmit 7,
   Act.slotCheck 8, Act.transmit 8,
   Act.callSend none none, Act.callSend none none,
   Act.slotCheck 9,
   Act.deliver { id := 8, result := some 1, error := none },
   Act.slotCheck 10, Act.transmit 10,
   Act.slotCheck 9, Act.transmit 9]

/-- C4: `send` does not chain request N+1 behind request N — the captured
`currentP` (api.js line 135) is never awaited — so each request transmits
whenever its own admission poll passes.  Running `c4acts` (a schedule
consistent with the 100-time-unit polls: request 9's poll fires while the
budget is full and is a no-op, and after the out-of-order reply releases
the budget, request 10's poll fires before request 9's next one) yields
writes in order `[0..8, 10, 9]`: request 10, called after request 9,
reaches the socket first, although the eleven requests were called in
identity order `[0..10]`. -/
theorem sendOrderInversion :
    (run initState c4acts).transmitted = [0, 1, 2, 3, 4, 5, 6, 7, 8, 10, 9] ∧
    (run initState c4acts).reqs.map (fun r => r.reqId) = [0, 1, 2, 3, 4, 5, 6, 7, 8, 9, 10] := by
  decide

/-- State of one `streamBlockNumber` stream (api.js lines 190-219): the
closure variables `running` and `current` (`current` starts as the empty
string, equal to no block number, modelled as `none`), plus whether a
chain-head query is in flight. -/
structure WatcherState where
  running : Bool
  current : Option Nat
  inQuery : Bool
deriving DecidableEq

/-- `streamBlockNumber` right after the initial `update()` call: running,
nothing seen yet, first query issued. -/
def streamBlockNumberStart : WatcherState :=
  { running := true, current := none, inQuery := true }

/-- One firing of `update` (api.js lines 194-212): if cancelled it returns
at once (`if (!running) return`), otherwise it issues the chain-head
query.  `update` only runs when no query is outstanding (it is re-armed
from the query's own continuation), hence the `inQuery = false` guard. -/
def updateTick (s : WatcherState) : WatcherState :=
  if s.running = true ∧ s.inQuery = false then { s with inQuery := true } else s

/-- The query's success continuation (api.js lines 199-208): if the
returned head differs from `current`, store it and emit it; otherwise
emit nothing; then re-arm the polling delay.  Note it does not re-check
`running`, so it still emits after cancellation. -/
def queryReturn (s : WatcherState) (head : Nat) : WatcherState × List Nat :=
  if s.inQuery = true then
    if some head ≠ s.current then
      ({ s with current := some head, inQuery := false }, [head])
    else
      ({ s with inQuery := false }, [])
  else (s, [])

/-- The release closure `streamBlockNumber` returns (api.js lines 216-218):
just `running = false`. -/
def watcherCancel (s : WatcherState) : WatcherState := { s with running := false }

/-- A full polling tick: the `update` firing followed by its query
returning `head`. -/
def watcherStep (s : WatcherState) (head : Nat) : WatcherState × List Nat :=
  queryReturn (updateTick s) head

/-- A sequence of polling ticks, collecting all emissions. -/
def watcherRun (s : WatcherState) : List Nat → WatcherState × List Nat
  | [] => (s, [])
  | h :: hs =>
    let p := watcherStep s h
    let q := watcherRun p.1 hs
    (q.1, p.2 ++ q.2)

/-- C7 counterexample: a fresh `streamBlockNumber` whose five polls see
head identities 100, 100, 101, 101, 102 emits three events — 100, 101 and
102 — because `current` starts as the empty string, which differs from the
first head too; the claim's count of exactly two (101 and 102) is wrong. -/
theorem firstHeadEmissionCounterexample :
    (watcherRun streamBlockNumberStart [100, 100, 101, 101, 102]).2 = [100, 101, 102] ∧
    (watcherRun streamBlockNumberStart [100, 100, 101, 101, 102]).2 ≠ [101, 102] := by
  decide

/-- C7 (amended): on each polling tick of a live stream, the head identity
is emitted if and only if it differs from the stored `current` (which
begins unset, so the very first head observed is also emitted), and
`current` is updated on emission; consequently the fresh stream observing
[100, 100, 101, 101, 102] emits exactly the three events 100, 101, 102. -/
theorem streamBlockNumberEmissionAmended (s : WatcherState) (head : Nat) :
    ((s.running = true ∨ s.inQuery = true) → watcherStep s head =
      (if some head ≠ s.current
        then ({ s with current := some head, inQuery := false }, [head])
        else ({ s with inQuery := false }, []))) ∧
    ((s.running = false ∧ s.inQuery = false) → watcherStep s head = (s, [])) ∧
    (watcherRun streamBlockNumberStart [100, 100, 101, 101, 102]).2 = [100, 101, 102] := by
  refine ⟨?_, ?_, by decide⟩
  · intro hlive
    rcases s with ⟨running, current, inQuery⟩
    cases running with
    | true =>
      cases inQuery <;> by_cases hc : some head ≠ current <;>
        simp [watcherStep, updateTick, queryReturn, hc]
    | false =>
      cases inQuery with
      | true =>
        by_cases hc : some head ≠ current <;>
          simp [watcherStep, updateTick, queryReturn, hc]
      | false =>
        exfalso
        rcases hlive with h | h <;> simp at h
  · rintro ⟨hr, hq⟩
    simp [watcherStep, updateTick, queryReturn, hr, hq]

/-- State of one `streamBlock` stream (api.js lines 221-240): the
underlying watcher plus the closure variable `last`. -/
structure BlockStreamState where
  w : WatcherState
  last : Option Nat
deriving DecidableEq

def streamBlockStart : BlockStreamState :=
  { w := streamBlockNumberStart, last := none }

/-- The callback `streamBlock` registers with `streamBlockNumber`
(api.js lines 225-237), applied to each emitted id in order: when the id
differs from `last`, store it and fetch-and-emit that block (modelled as
emitting the fetched id). -/
def blockCallback : Option Nat → List Nat → Option Nat × List Nat
  | last, [] => (last, [])
  | last, i :: rest =>
    if some i ≠ last then
      let p := blockCallback (some i) rest
      (p.1, i :: p.2)
    else blockCallback last rest

/-- One polling tick seen from the block layer. -/
def blockStep (b : BlockStreamState) (head : Nat) : BlockStreamState × List Nat :=
  let p := watcherStep b.w head
  let q := blockCallback b.last p.2
  ({ w := p.1, last := q.1 }, q.2)

def blockRun : BlockStreamState → List Nat → BlockStreamState × List Nat
  | b, [] => (b, [])
  | b, h :: hs =>
    let p := blockStep b h
    let q := blockRun p.1 hs
    (q.1, p.2 ++ q.2)

/-- `streamBlock` returns exactly the release of the `streamBlockNumber`
beneath it (api.js line 239): cancelling the block layer cancels the
watcher layer. -/
def blockCancel (b : BlockStreamState) : BlockStreamState :=
  { b with w := watcherCancel b.w }

/-- Two independent sibling watcher streams advancing one tick each. -/
def pairStep (p : WatcherState × WatcherState) (h1 h2 : Nat) :
    (WatcherState × WatcherState) × (List Nat × List Nat) :=
  (((watcherStep p.1 h1).1, (watcherStep p.2 h2).1),
   ((watcherStep p.1 h1).2, (watcherStep p.2 h2).2))

/-- C8 counterexample: cancelling the block stream while the chain-head
query of the watcher beneath it is in flight does not stop all emissions:
the in-flight query's continuation still runs, the watcher emits the head,
and the block layer fetches and emits that block after cancellation. -/
theorem cancelInFlightCounterexample :
    (blockStep (blockCancel streamBlockStart) 100).2 = [100] ∧
    (watcherStep (watcherCancel streamBlockNumberStart) 100).2 = [100] := by
  decide

lemma watcherRun_stopped (s : WatcherState) (hs : List Nat) (hr : s.running = false)
    (hq : s.inQuery = false) : watcherRun s hs = (s, []) := by
  induction hs with
  | nil => rfl
  | cons h hs ih =>
    have hstep : watcherStep s h = (s, []) := by
      simp [watcherStep, updateTick, queryReturn, hr, hq]
    simp [watcherRun, hstep, ih]

lemma watcherStep_cancel_state (s : WatcherState) (h : Nat) :
    (watcherStep (watcherCancel s) h).1.running = false ∧
    (watcherStep (watcherCancel s) h).1.inQuery = false := by
  rcases s with ⟨running, current, inQuery⟩
  cases inQuery <;>
    by_cases hc : some h ≠ current <;>
      simp [watcherStep, watcherCancel, updateTick, queryReturn, hc]

/-- C8 (amended): every stream layer's cancellation handle is idempotent,
and cancelling at layer `streamBlock` is exactly cancelling the
`streamBlockNumber` beneath it, transitively stopping the polling of every
layer below; once cancelled with no query in flight, no tick of either
layer ever emits again; after at most the one emission of a query that was
already in flight at cancellation time, all later ticks emit nothing; and
cancelling one stream leaves an independent sibling stream's emissions
untouched. -/
theorem cancelSemanticsAmended :
    (∀ s : WatcherState, watcherCancel (watcherCancel s) = watcherCancel s) ∧
    (∀ b : BlockStreamState, blockCancel (blockCancel b) = blockCancel b) ∧
    (∀ b : BlockStreamState, (blockCancel b).w = watcherCancel b.w ∧ (blockCancel b).w.running = false) ∧
    (∀ (s : WatcherState) (hs : List Nat), s.inQuery = false →
      watcherRun (watcherCancel s) hs = (watcherCancel s, [])) ∧
    (∀ (b : BlockStreamState) (hs : List Nat), b.w.inQuery = false →
      blockRun (blockCancel b) hs = (blockCancel b, [])) ∧
    (∀ (s : WatcherState) (h : Nat) (hs : List Nat),
      (watcherRun (watcherStep (watcherCancel s) h).1 hs).2 = []) ∧
    (∀ (a b : WatcherState) (h1 h2 : Nat),
      (pairStep (watcherCancel a, b) h1 h2).2.2 = (pairStep (a, b) h1 h2).2.2) := by
  have hcancel_run : ∀ (s : WatcherState) (hs : List Nat), s.inQuery = false →
      watcherRun (watcherCancel s) hs = (watcherCancel s, []) := by
    intro s hs hq
    exact watcherRun_stopped (watcherCancel s) hs rfl hq
  refine ⟨?_, ?_, ?_, hcancel_run, ?_, ?_, ?_⟩
  · intro s
    rfl
  · intro b
    rfl
  · intro b
    exact ⟨rfl, rfl⟩
  · intro b hs hq
    induction hs with
    | nil => rfl
    | cons h hs ih =>
      have hw : watcherStep (watcherCancel b.w) h = (watcherCancel b.w, []) := by
        rcases b with ⟨⟨running, current, inQuery⟩, last⟩
        simp only at hq
        subst hq
        simp [watcherStep, watcherCancel, updateTick, queryReturn]
      have hstep : blockStep (blockCancel b) h = (blockCancel b, []) := by
        simp [blockStep, blockCancel, hw, blockCallback]
      simp [blockRun, hstep, ih]
  · intro s h hs
    obtain ⟨hr, hq⟩ := watcherStep_cancel_state s h
    rw [watcherRun_stopped _ hs hr hq]
  · intro a b h1 h2
    rfl

/-- The ids a sequence of `send` calls receives, with whether each one was
auto-allocated from the counter (`data.id` absent or 0, both falsy). -/
def runIds : Nat → List (Option Nat) → List (Nat × Bool)
  | _, [] => []
  | counter, d :: ds =>
    let p := chooseId d counter
    (p.1, decide (d = none ∨ d = some 0)) :: runIds p.2 ds

/-- The auto-allocated ids of a sequence of `send` calls. -/
def autoIds (counter : Nat) (ds : List (Option Nat)) : List Nat :=
  (runIds counter ds).filterMap (fun q => if q.2 = true then some q.1 else none)

/-- C9 counterexample: a caller-supplied identity 0 is falsy for `||`, so
`send` ignores it and allocates from the counter instead — with the
counter at 7 the request gets identity 7, not the supplied 0, refuting
"that identity is used for every supplied value, including 0". -/
theorem zeroIdCounterexample :
    chooseId (some 0) 7 = (7, 8) ∧ (chooseId (some 0) 7).1 ≠ 0 ∧
    autoIds 7 [some 0] = [7] := by
  decide

lemma autoIds_cons_auto (c : Nat) (ds : List (Option Nat)) (d : Option Nat)
    (hd : d = none ∨ d = some 0) : autoIds c (d :: ds) = c :: autoIds (c + 1) ds := by
  rcases hd with rfl | rfl <;> simp [autoIds, runIds, chooseId]

lemma autoIds_cons_explicit (c : Nat) (ds : List (Option Nat)) (k : Nat) (hk : k ≠ 0) :
    autoIds c (some k :: ds) = autoIds c ds := by
  simp [autoIds, runIds, chooseId, hk]

lemma autoIds_ge (ds : List (Option Nat)) : ∀ (c x : Nat), x ∈ autoIds c ds → c ≤ x := by
  induction ds with
  | nil =>
    intro c x hx
    simp [autoIds, runIds] at hx
  | cons d ds ih =>
    intro c x hx
    match d with
    | none =>
      rw [autoIds_cons_auto c ds none (Or.inl rfl)] at hx
      rcases List.mem_cons.mp hx with rfl | hx
      · omega
      · exact Nat.le_of_succ_le (ih _ x hx)
    | some 0 =>
      rw [autoIds_cons_auto c ds (some 0) (Or.inr rfl)] at hx
      rcases List.mem_cons.mp hx with rfl | hx
      · omega
      · exact Nat.le_of_succ_le (ih _ x hx)
    | some (k + 1) =>
      rw [autoIds_cons_explicit c ds (k + 1) (Nat.succ_ne_zero k)] at hx
      exact ih c x hx

lemma autoIds_sorted (ds : List (Option Nat)) :
    ∀ c : Nat, List.Pairwise (fun a b => a < b) (autoIds c ds) := by
  induction ds with
  | nil =>
    intro c
    simp [autoIds, runIds]
  | cons d ds ih =>
    intro c
    match d with
    | none =>
      rw [autoIds_cons_auto c ds none (Or.inl rfl)]
      refine List.Pairwise.cons ?_ (ih (c + 1))
      intro b hb
      exact Nat.lt_of_succ_le (autoIds_ge ds (c + 1) b hb)
    | some 0 =>
      rw [autoIds_cons_auto c ds (some 0) (Or.inr rfl)]
      refine List.Pairwise.cons ?_ (ih (c + 1))
      intro b hb
      exact Nat.lt_of_succ_le (autoIds_ge ds (c + 1) b hb)
    | some (k + 1) =>
      rw [autoIds_cons_explicit c ds (k + 1) (Nat.succ_ne_zero k)]
      exact ih c

/-- C9 (amended): a caller-supplied identity is used only when it is
truthy (non-zero): `chooseId (some k) c = (k, c)` for `k ≠ 0`, while a
supplied 0 — like an absent identity — takes the next counter value and
bumps the counter; across any sequence of `send` calls the auto-allocated
identities are strictly increasing, so an auto-allocated identity is never
reused. -/
theorem idAssignmentAmended :
    (∀ (k c : Nat), k ≠ 0 → chooseId (some k) c = (k, c)) ∧
    (∀ c : Nat, chooseId (some 0) c = (c, c + 1)) ∧
    (∀ c : Nat, chooseId none c = (c, c + 1)) ∧
    (∀ (c : Nat) (ds : List (Option Nat)),
      List.Pairwise (fun a b => a < b) (autoIds c ds)) := by
  refine ⟨?_, ?_, ?_, ?_⟩
  · intro k c hk
    simp [chooseId, hk]
  · intro c
    rfl
  · intro c
    rfl
  · intro c ds
    exact autoIds_sorted ds c

/-- C10: `Object.assign(options, DEFAULTS)` copies the defaults over the
caller's values, so whatever the caller supplied for `url`, `apiIds` or
`id`, the stored configuration always carries the `DEFAULTS` values; the
assignment mutates the caller's own object (the caller's object after the
constructor equals the overwritten one, keys outside `DEFAULTS` kept). -/
theorem constructorDefaultsOverride (o : OptionsObj) :
    (constructorOptions o).2.url = some "wss://steemit.com/wspa" ∧
    (constructorOptions o).2.apiIds =
      some { database_api := 0, login_api := 1, follow_api := 3, network_broadcast_api := 2 } ∧
    (constructorOptions o).2.id = some 0 ∧
    (constructorOptions o).2 = (constructorOptions o).1 ∧
    (constructorOptions o).1 = objectAssignDefaults o ∧
    (constructorOptions o).1.extra = o.extra := by
  exact ⟨rfl, rfl, rfl, rfl, rfl, rfl⟩

end Steem
